import Mathlib

/-!
Verification of the jina-mcp-scraper document indexing core.

This file gives a shallow embedding of the four core modules —
`SimpleTextSplitter` (chunker), `DatabaseManager` (storage engine over the
SQLite schema in `schema.sql`), `DocumentIndexingService` (indexing
orchestrator and query service), and `MockEmbeddingsService` (embedding
provider) — and proves or refutes the frozen claims about them.

JavaScript string primitives (trim, split, regular-expression matching on
the patterns the source uses) are modelled character by character so that
all chunker definitions are executable and concrete runs can be settled by
`decide`.  SQLite tables are modelled as lists of rows with explicit
AUTOINCREMENT counters; SQL statements become pure state transformers.
-/

/-! ## JavaScript string primitives -/

/-- Character class of the JavaScript regular-expression `\s` (which is also
the character set removed by `String.prototype.trim`): space, tab, line
terminators, and the Unicode space separators. -/
def isJsWs (c : Char) : Bool :=
  c = ' ' || c = '\t' || c = '\n' || c = '\r' ||
  c = Char.ofNat 11 || c = Char.ofNat 12 ||
  c = Char.ofNat 0xa0 || c = Char.ofNat 0x1680 ||
  (decide (0x2000 ≤ c.val) && decide (c.val ≤ 0x200a)) ||
  c = Char.ofNat 0x2028 || c = Char.ofNat 0x2029 ||
  c = Char.ofNat 0x202f || c = Char.ofNat 0x205f ||
  c = Char.ofNat 0x3000 || c = Char.ofNat 0xfeff

/-- JavaScript line terminators, the characters the regular-expression `.`
does not match. -/
def isLineTerm (c : Char) : Bool :=
  c = '\n' || c = '\r' || c = Char.ofNat 0x2028 || c = Char.ofNat 0x2029

/-- JavaScript `String.prototype.trim`: strip leading and trailing `\s`
characters. -/
def jsTrim (s : String) : String :=
  String.mk (((s.data.dropWhile isJsWs).reverse.dropWhile isJsWs).reverse)

/-- JavaScript `String.prototype.length`: UTF-16 code units (characters above
the basic multilingual plane count twice). -/
def jsLength (s : String) : Nat :=
  s.data.foldl (fun n c => n + if c.val < 0x10000 then 1 else 2) 0

/-- Does the list start with the given pattern? -/
def listStartsWith : List Char → List Char → Bool
  | _, [] => true
  | [], _ :: _ => false
  | c :: cs, p :: ps => c = p && listStartsWith cs ps

/-- Does the list contain the pattern as a contiguous sublist?  Models
JavaScript `String.prototype.includes`. -/
def containsSub : List Char → List Char → Bool
  | [], pat => listStartsWith [] pat
  | c :: rest, pat => listStartsWith (c :: rest) pat || containsSub rest pat

/-- JavaScript `String.prototype.split` with a non-empty literal separator:
cut at each leftmost occurrence of the separator (the callers in the source
only ever pass non-empty separators).  The recursion is structural on a fuel
argument so that concrete runs reduce in the kernel; at least one character
is consumed per unit of fuel, so the fuel chosen in `jsSplit` never runs
out. -/
def jsSplitLitAux (sep : List Char) : Nat → List Char → List Char → List String
  | _, [], acc => [String.mk acc.reverse]
  | 0, cs, acc => [String.mk (acc.reverse ++ cs)]
  | fuel + 1, c :: rest, acc =>
    if listStartsWith (c :: rest) sep ∧ sep ≠ [] then
      String.mk acc.reverse :: jsSplitLitAux sep fuel ((c :: rest).drop sep.length) []
    else jsSplitLitAux sep fuel rest (c :: acc)

/-- JavaScript `s.split(sep)` for a string separator. -/
def jsSplit (s sep : String) : List String :=
  jsSplitLitAux sep.data (s.data.length + 1) s.data []

/-- Index of the last newline character in a list, if any. -/
def lastNewlineIdx : List Char → Option Nat
  | [] => none
  | c :: cs =>
    match lastNewlineIdx cs with
    | some i => some (i + 1)
    | none => if c = '\n' then some 0 else none

/-- After an opening newline, the regular expression `\n\s*\n` closes at the
last newline inside the maximal whitespace run that follows (greedy `\s*`
with backtracking).  Returns how many characters of the tail the match
consumes, or `none` if it cannot close. -/
def closeTarget (cs : List Char) : Option Nat :=
  (lastNewlineIdx (cs.takeWhile isJsWs)).map (· + 1)

/-- JavaScript `text.split(/\n\s*\n/)`: the pieces between blank-line
boundaries, where a boundary is a newline, optional whitespace, and another
newline. -/
def splitBlankAux : Nat → List Char → List Char → List String
  | _, [], acc => [String.mk acc.reverse]
  | 0, cs, acc => [String.mk (acc.reverse ++ cs)]
  | fuel + 1, c :: rest, acc =>
    if c = '\n' then
      match closeTarget rest with
      | some k => String.mk acc.reverse :: splitBlankAux fuel (rest.drop k) []
      | none => splitBlankAux fuel rest (c :: acc)
    else splitBlankAux fuel rest (c :: acc)

/-- Paragraph boundaries of `SimpleTextSplitter.splitText`:
`text.split(/\n\s*\n/)`. -/
def splitBlank (text : String) : List String :=
  splitBlankAux (text.data.length + 1) text.data []

/-- Matching of the tail of the heading regular expression `\s+(.+)$`
(anchored, no multiline flag): greedy whitespace run followed by a non-empty
line-terminator-free remainder reaching the end of the string.  Tries the
longest whitespace run first, shortening on failure, exactly as the
backtracking engine does; returns the captured `(.+)` text. -/
def headingBodyAux (t : List Char) : Nat → Option String
  | 0 => none
  | k + 1 =>
    if (t.take (k + 1)).all isJsWs && decide (t.drop (k + 1) ≠ []) &&
        (t.drop (k + 1)).all (fun c => !isLineTerm c) then
      some (String.mk (t.drop (k + 1)))
    else headingBodyAux t k

/-- JavaScript `trimmed.match(/^(#{1,6})\s+(.+)$/)`: a run of one to six
hash marks followed by whitespace and heading text.  A run of seven or more
hash marks never matches, because after any shorter prefix of hashes the
next character is again a hash, not whitespace.  Returns the heading level
and the captured heading text. -/
def headingMatch (s : String) : Option (Nat × String) :=
  let cs := s.data
  let hashes := (cs.takeWhile (fun c => c = '#')).length
  if 1 ≤ hashes ∧ hashes ≤ 6 then
    (headingBodyAux (cs.drop hashes) (cs.length - hashes)).map (fun body => (hashes, body))
  else none

/-- JavaScript `content.match(/^#{1,6}\s+/)` viewed as a Boolean test: one to
six leading hash marks followed by at least one whitespace character. -/
def startsWithHeadingMark (s : String) : Bool :=
  let cs := s.data
  let hashes := (cs.takeWhile (fun c => c = '#')).length
  match (cs.drop hashes).head? with
  | some c => decide (1 ≤ hashes) && decide (hashes ≤ 6) && isJsWs c
  | none => false

/-- JavaScript `content.split(/\s+/)`: pieces between maximal whitespace
runs; a leading run yields a leading empty piece and a trailing run a
trailing empty piece. -/
def splitWsAux : Nat → List Char → List Char → List String
  | _, [], acc => [String.mk acc.reverse]
  | 0, cs, acc => [String.mk (acc.reverse ++ cs)]
  | fuel + 1, c :: rest, acc =>
    if isJsWs c then String.mk acc.reverse :: splitWsAux fuel (rest.dropWhile isJsWs) []
    else splitWsAux fuel rest (c :: acc)

/-- Token count used by `createChunk`: `content.split(/\s+/).length`. -/
def jsSplitWsCount (s : String) : Nat :=
  (splitWsAux (s.data.length + 1) s.data []).length

/-- JavaScript `array.slice(0, e)` where `e` may be negative (counted from
the end). -/
def jsSliceTo (l : List String) (e : Int) : List String :=
  if 0 ≤ e then l.take e.toNat else l.take (l.length - (-e).toNat)

/-! ## SimpleTextSplitter (the Chunker) -/

/-- Method `updateHeadingPath` of `SimpleTextSplitter`: an empty current path
is replaced by the new heading; otherwise the path is split on `" > "`,
sliced to `level - 1` components, the new heading is appended, and the
components are re-joined. -/
def updateHeadingPath (currentPath newHeading : String) (level : Nat) : String :=
  if currentPath = ("") then newHeading
  else
    let pathParts := jsSplit currentPath (" > ")
    let newPath := jsSliceTo pathParts ((level : Int) - 1) ++ [newHeading]
    String.intercalate (" > ") newPath

/-- Method `detectChunkType`: fenced-code marker wins, then table (a pipe
together with a dash run), then a leading heading mark, else plain text. -/
def detectChunkType (content : String) : String :=
  let backtick := Char.ofNat 96
  if containsSub content.data [backtick, backtick, backtick] then ("code")
  else if containsSub content.data ['|'] && containsSub content.data ['-', '-', '-'] then ("table")
  else if startsWithHeadingMark content then ("heading")
  else ("text")

/-- A chunk draft as produced by `SimpleTextSplitter.createChunk` (the
pass-through `metadata` field is omitted: no claim concerns it). -/
structure Chunk where
  content : String
  headingPath : String
  index : Nat
  type : String
  tokenCount : Nat
deriving DecidableEq

/-- Method `createChunk`. -/
def createChunk (content headingPath : String) (index : Nat) : Chunk :=
  { content := content, headingPath := headingPath, index := index,
    type := detectChunkType content, tokenCount := jsSplitWsCount content }

/-- Mutable locals of the `splitText` paragraph loop. -/
structure SplitState where
  chunks : List Chunk
  currentChunk : String
  currentHeading : String
  chunkIndex : Nat
deriving DecidableEq

/-- One iteration of the `splitText` paragraph loop. -/
def splitStep (maxChunkSize : Nat) (st : SplitState) (paragraph : String) : SplitState :=
  let trimmed := jsTrim paragraph
  if trimmed = ("") then st
  else
    match headingMatch trimmed with
    | some lv =>
      let flushed :=
        if jsTrim st.currentChunk ≠ ("") then
          { st with
              chunks := st.chunks ++ [createChunk (jsTrim st.currentChunk) st.currentHeading st.chunkIndex],
              chunkIndex := st.chunkIndex + 1,
              currentChunk := ("") }
        else st
      { flushed with
          currentHeading := updateHeadingPath flushed.currentHeading lv.2 lv.1,
          currentChunk := trimmed ++ ("\n\n") }
    | none =>
      let proposed := st.currentChunk ++ trimmed ++ ("\n\n")
      if jsLength proposed > maxChunkSize ∧ jsTrim st.currentChunk ≠ ("") then
        { st with
            chunks := st.chunks ++ [createChunk (jsTrim st.currentChunk) st.currentHeading st.chunkIndex],
            chunkIndex := st.chunkIndex + 1,
            currentChunk := trimmed ++ ("\n\n") }
      else { st with currentChunk := proposed }

/-- Initial values of the `splitText` loop locals. -/
def initSplitState : SplitState :=
  { chunks := [], currentChunk := (""), currentHeading := (""), chunkIndex := 0 }

/-- Method `splitText` of `SimpleTextSplitter`: fold the paragraph loop over
the blank-line split, flush the remaining buffer, and fall back to the whole
trimmed text when no chunk was produced. -/
def splitText (maxChunkSize : Nat) (text : String) : List Chunk :=
  let paragraphs := splitBlank text
  let stF := paragraphs.foldl (splitStep maxChunkSize) initSplitState
  let chunks :=
    if jsTrim stF.currentChunk ≠ ("") then
      stF.chunks ++ [createChunk (jsTrim stF.currentChunk) stF.currentHeading stF.chunkIndex]
    else stF.chunks
  if chunks.isEmpty ∧ jsTrim text ≠ ("") then
    [createChunk (jsTrim text) stF.currentHeading 0]
  else chunks

example :
    (splitText 1000 ("# Intro\n\nHello world.\n\n# Setup\n\nRun npm install.")).map
      (fun c => (c.content, c.headingPath, c.index)) =
    [(("# Intro\n\nHello world."), ("Intro"), 0),
     (("# Setup\n\nRun npm install."), ("Setup"), 1)] := by decide

example : updateHeadingPath ("A > B > C") ("D") 2 = ("A > D") := by decide

/-- Components of a heading path string: the empty path has no components,
otherwise the pieces between the `" > "` separators. -/
def headingPathParts (p : String) : List String :=
  if p = ("") then [] else jsSplit p (" > ")

theorem intercalateSingleton (s a : String) : String.intercalate s [a] = a := rfl

/-- C5: for every current heading path and every heading of level L (1-6),
`updateHeadingPath` truncates the path to depth L-1 and then appends the new
heading text; in particular path "A > B > C" followed by a level-2 heading
"D" yields "A > D". -/
theorem c5_updateHeadingPath_truncate_append (p h : String) (level : Nat)
    (h1 : 1 ≤ level) (h6 : level ≤ 6) :
    updateHeadingPath p h level =
      String.intercalate (" > ") ((headingPathParts p).take (level - 1) ++ [h]) ∧
    updateHeadingPath ("A > B > C") ("D") 2 = ("A > D") := by
  refine ⟨?_, by decide⟩
  by_cases hp : p = ("")
  · simp [updateHeadingPath, headingPathParts, hp, intercalateSingleton]
  · have hto : ((level : Int) - 1).toNat = level - 1 := by omega
    have hnn : (0 : Int) ≤ (level : Int) - 1 := by omega
    simp [updateHeadingPath, headingPathParts, hp, jsSliceTo, hnn, hto]

/-- Witness for C5 at a concrete input. -/
theorem c5_updateHeadingPath_truncate_append_witness :
    updateHeadingPath ("X > Y > Z") ("W") 3 =
      String.intercalate (" > ") ((headingPathParts ("X > Y > Z")).take 2 ++ [("W")]) :=
  (c5_updateHeadingPath_truncate_append ("X > Y > Z") ("W") 3 (by decide) (by decide)).1

/-! ## DatabaseManager over schema.sql -/

/-- Row of the `documents` table (the `indexed_at` timestamp column is not
modelled; no claim depends on it). -/
structure DocumentRow where
  id : Nat
  title : String
  library : String
  version : String
  filePath : Option String
deriving DecidableEq

/-- Row of the `chunks` table. -/
structure ChunkRow where
  id : Nat
  documentId : Nat
  content : String
  chunkIndex : Nat
  headingPath : String
deriving DecidableEq

/-- Row of the `chunks_fts` FTS5 virtual table, keyed by the chunk id it
mirrors. -/
structure FtsRow where
  rowid : Nat
  content : String
  headingPath : String
deriving DecidableEq

/-- Row of the `embeddings` table.  The source stores the vector as a JSON
string; the vector itself is modelled, JSON serialization of a numeric
array being injective. -/
structure EmbeddingRow where
  id : Nat
  chunkId : Nat
  embedding : List ℚ
deriving DecidableEq

/-- The whole SQLite database: one list of rows per table plus the
AUTOINCREMENT counters (SQLite assigns rowids from 1). -/
structure DBState where
  documents : List DocumentRow
  chunks : List ChunkRow
  chunksFts : List FtsRow
  embeddings : List EmbeddingRow
  nextDocumentId : Nat
  nextChunkId : Nat
  nextEmbeddingId : Nat
deriving DecidableEq

/-- A freshly initialized database. -/
def emptyDB : DBState :=
  { documents := [], chunks := [], chunksFts := [], embeddings := [],
    nextDocumentId := 1, nextChunkId := 1, nextEmbeddingId := 1 }

/-- Argument object of `insertDocument`.  The indexing orchestrator passes
objects carrying `title`, `library`, `version` and no `filePath` key; a
missing key reads as `undefined`, modelled by `none`. -/
structure DocInput where
  title : String
  library : String
  version : String
  filePath : Option String
deriving DecidableEq

/-- JavaScript truthiness of an optional string argument: `null` /
`undefined` and the empty string are falsy. -/
def jsTruthy : Option String → Bool
  | some s => s != ("")
  | none => false

/-- The chunk loop of `insertDocument`: insert each chunk row (the loop
position `i` becomes `chunk_index`, the chunk's heading path goes through
the `|| ''` default) and then its `chunks_fts` mirror row, collecting the
assigned chunk ids.  No transaction is opened here; every statement
auto-commits on its own. -/
def insertChunksFrom (documentId : Nat) : DBState → Nat → List Chunk → DBState × List Nat
  | st, _, [] => (st, [])
  | st, i, chunk :: rest =>
    let chunkId := st.nextChunkId
    let chunkRow : ChunkRow :=
      { id := chunkId, documentId := documentId, content := chunk.content,
        chunkIndex := i, headingPath := chunk.headingPath }
    let ftsRow : FtsRow :=
      { rowid := chunkId, content := chunk.content, headingPath := chunk.headingPath }
    let st1 : DBState :=
      { st with chunks := st.chunks ++ [chunkRow],
                chunksFts := st.chunksFts ++ [ftsRow],
                nextChunkId := chunkId + 1 }
    let res := insertChunksFrom documentId st1 (i + 1) rest
    (res.1, chunkId :: res.2)

/-- Document row built by `insertDocument`: `version` and `filePath` go
through the JavaScript `||` defaults of the source. -/
def docRowOf (document : DocInput) (documentId : Nat) : DocumentRow :=
  { id := documentId, title := document.title, library := document.library,
    version := if document.version = ("") then ("latest") else document.version,
    filePath := match document.filePath with
                | some p => if p = ("") then none else some p
                | none => none }

/-- Method `insertDocument` of `DatabaseManager`: insert the document row,
then every chunk row and its full-text mirror. -/
def insertDocument (st : DBState) (document : DocInput) (chunks : List Chunk) :
    DBState × Nat × List Nat :=
  let documentId := st.nextDocumentId
  let st1 : DBState :=
    { st with documents := st.documents ++ [docRowOf document documentId],
              nextDocumentId := documentId + 1 }
  let res := insertChunksFrom documentId st1 0 chunks
  (res.1, documentId, res.2)

/-- Observable database state when an exception aborts `insertDocument`
while it is inserting chunk number `k` (zero-based).  `insertDocument`
opens no transaction and every statement auto-commits, so the document row
and the first `k` fully inserted chunks (with their full-text mirrors) are
already durable, and the failing statement itself changes nothing. -/
def insertDocumentPartial (st : DBState) (document : DocInput) (chunks : List Chunk)
    (k : Nat) : DBState :=
  (insertDocument st document (chunks.take k)).1

/-- Method `insertEmbeddings`: one `INSERT OR REPLACE INTO embeddings
(chunk_id, embedding)` per entry, wrapped in one transaction.  `INSERT OR
REPLACE` deletes a pre-existing row only when a uniqueness constraint would
be violated; the only uniqueness constraint of the `embeddings` table is
its auto-assigned integer primary key (`schema.sql` gives `chunk_id` a
plain non-unique index), and the fresh primary key never conflicts, so each
entry appends a new row. -/
def insertEmbeddings (st : DBState) (chunkEmbeddings : List (Nat × List ℚ)) : DBState :=
  chunkEmbeddings.foldl
    (fun acc ce =>
      { acc with
          embeddings := acc.embeddings ++
            [{ id := acc.nextEmbeddingId, chunkId := ce.1, embedding := ce.2 }],
          nextEmbeddingId := acc.nextEmbeddingId + 1 })
    st

/-- Method `getDocuments`: optional equality filters on library and version
(JavaScript truthiness, so an empty string disables a filter), each
document paired with its chunk count from the LEFT JOIN / GROUP BY.  The
`ORDER BY indexed_at DESC` of the source orders by insertion timestamp;
timestamps are not modelled and rows stay in table order, on which no
claim depends. -/
def getDocuments (st : DBState) (library version : Option String) :
    List (DocumentRow × Nat) :=
  (st.documents.filter (fun d =>
      (!jsTruthy library || d.library == library.getD ("")) &&
      (!jsTruthy version || d.version == version.getD ("")))).map
    (fun d => (d, (st.chunks.filter (fun c => c.documentId == d.id)).length))

/-- Row predicate of the `deleteLibrary` DELETE: `WHERE library = ?`, plus
`AND version = ?` when a truthy version argument was given. -/
def deleteMatches (library : String) (version : Option String) (d : DocumentRow) : Bool :=
  d.library == library && (!jsTruthy version || d.version == version.getD (""))

/-- Method `deleteLibrary`: delete the matching document rows and return
`changes`, the number of rows removed.  `better-sqlite3` enables
foreign-key enforcement, so the `ON DELETE CASCADE` clauses of `schema.sql`
also remove the deleted documents' chunks and those chunks' embeddings.
`chunks_fts` is an FTS5 virtual table with no foreign key and no triggers;
its rows are untouched. -/
def deleteLibrary (st : DBState) (library : String) (version : Option String) :
    DBState × Nat :=
  let deletedDocIds := (st.documents.filter (deleteMatches library version)).map (fun d => d.id)
  let deletedChunkIds :=
    (st.chunks.filter (fun c => deletedDocIds.contains c.documentId)).map (fun c => c.id)
  ({ st with
      documents := st.documents.filter (fun d => !deleteMatches library version d),
      chunks := st.chunks.filter (fun c => !deletedDocIds.contains c.documentId),
      embeddings := st.embeddings.filter (fun e => !deletedChunkIds.contains e.chunkId) },
    deletedDocIds.length)

/-- SQLite FTS5 is an external engine: which rows a MATCH query selects and
the bm25 rank it assigns them are modelled as parameters. -/
structure FtsEngine where
  selects : FtsRow → String → Bool
  rank : FtsRow → String → Int

/-- Row shape produced by the `searchChunks` SELECT (column aliases of the
source query). -/
structure SearchRow where
  chunk_id : Nat
  content : String
  heading_path : String
  title : String
  library : String
  version : String
  file_path : Option String
  rank : Int
deriving DecidableEq

/-- The FROM/JOIN/WHERE part of `searchChunks`: every `chunks_fts` row
matching the query, joined to the chunk with `fts.rowid = c.id` and to that
chunk's owning document. -/
def ftsJoin (eng : FtsEngine) (st : DBState) (query : String) : List SearchRow :=
  st.chunksFts.flatMap (fun f =>
    if eng.selects f query then
      st.chunks.flatMap (fun c =>
        if f.rowid = c.id then
          st.documents.flatMap (fun d =>
            if c.documentId = d.id then
              [{ chunk_id := c.id, content := c.content, heading_path := c.headingPath,
                 title := d.title, library := d.library, version := d.version,
                 file_path := d.filePath, rank := eng.rank f query }]
            else [])
        else [])
    else [])

/-- Stable insertion into a rank-sorted list: a new row goes before the
first row of strictly greater rank. -/
def insertByRank (r : SearchRow) : List SearchRow → List SearchRow
  | [] => [r]
  | x :: xs => if r.rank ≤ x.rank then r :: x :: xs else x :: insertByRank r xs

/-- Stable ascending sort by rank, modelling `ORDER BY fts.rank` (bm25
ranks are negative, so ascending order puts the best match first; the
order of rank ties is not observable to any claim). -/
def sortByRank : List SearchRow → List SearchRow
  | [] => []
  | x :: xs => insertByRank x (sortByRank xs)

/-- Method `searchChunks`: the join, ordered by ascending full-text rank,
capped at `limit`. -/
def searchChunks (eng : FtsEngine) (st : DBState) (query : String) (limit : Nat) :
    List SearchRow :=
  (sortByRank (ftsJoin eng st query)).take limit

/-! ## C6: contiguous chunk sequence indices -/

/-- One step of the paragraph loop preserves the invariant that accumulated
chunks carry the indices `0 .. chunkIndex - 1` in emission order. -/
theorem splitStep_indices (maxCS : Nat) (st : SplitState) (paragraph : String)
    (hinv : st.chunks.map (fun c => c.index) = List.range st.chunkIndex) :
    (splitStep maxCS st paragraph).chunks.map (fun c => c.index) =
      List.range (splitStep maxCS st paragraph).chunkIndex := by
  unfold splitStep
  by_cases h0 : jsTrim paragraph = ("")
  · simpa [h0] using hinv
  · cases hm : headingMatch (jsTrim paragraph) with
    | some lv =>
      by_cases hf : jsTrim st.currentChunk ≠ ("")
      · simp [h0, hm, hf, createChunk, hinv, List.range_succ]
      · simp [h0, hm, hf, hinv]
    | none =>
      by_cases hb : jsLength (st.currentChunk ++ jsTrim paragraph ++ ("\n\n")) > maxCS ∧
          jsTrim st.currentChunk ≠ ("")
      · simp [h0, hm, hb, createChunk, hinv, List.range_succ]
      · simp [h0, hm, hb, hinv]

/-- The paragraph loop as a whole preserves the index invariant. -/
theorem splitFold_indices (maxCS : Nat) :
    ∀ (paras : List String) (st : SplitState),
      st.chunks.map (fun c => c.index) = List.range st.chunkIndex →
      ((paras.foldl (splitStep maxCS) st).chunks.map (fun c => c.index) =
        List.range (paras.foldl (splitStep maxCS) st).chunkIndex) := by
  intro paras
  induction paras with
  | nil => intro st h; simpa using h
  | cons p rest ih =>
    intro st h
    simpa using ih (splitStep maxCS st p) (splitStep_indices maxCS st p h)

/-- Chunk sequence indices emitted by `splitText` are exactly `0 .. N-1` in
emission order. -/
theorem splitText_indices (maxCS : Nat) (text : String) :
    (splitText maxCS text).map (fun c => c.index) =
      List.range (splitText maxCS text).length := by
  have h0 : initSplitState.chunks.map (fun c => c.index) =
      List.range initSplitState.chunkIndex := by
    simp [initSplitState]
  have hf := splitFold_indices maxCS (splitBlank text) initSplitState h0
  have hlen : ((splitBlank text).foldl (splitStep maxCS) initSplitState).chunks.length =
      ((splitBlank text).foldl (splitStep maxCS) initSplitState).chunkIndex := by
    have hl := congrArg List.length hf
    simpa using hl
  unfold splitText
  set stF := (splitBlank text).foldl (splitStep maxCS) initSplitState with hstF
  by_cases hflush : jsTrim stF.currentChunk ≠ ("")
  · have hne : (stF.chunks ++
        [createChunk (jsTrim stF.currentChunk) stF.currentHeading stF.chunkIndex]).isEmpty =
        false := by
      simp
    simp only [if_pos hflush, hne]
    simp [hf, hlen, List.range_succ, createChunk, ← hstF]
  · simp only [if_neg hflush]
    by_cases hdeg : stF.chunks.isEmpty = true ∧ jsTrim text ≠ ("")
    · have hr1 : List.range 1 = [0] := by decide
      simp [hdeg, createChunk, hr1]
    · simp only [if_neg hdeg]
      rw [hf, hlen]

/-- Every text with non-empty trimmed content yields at least one chunk (in
the worst case via the whole-text fallback of `splitText`). -/
theorem splitText_nonempty (maxCS : Nat) (text : String) (h : jsTrim text ≠ ("")) :
    1 ≤ (splitText maxCS text).length := by
  unfold splitText
  set stF := (splitBlank text).foldl (splitStep maxCS) initSplitState with hstF
  by_cases hflush : jsTrim stF.currentChunk ≠ ("")
  · simp [if_pos hflush]
  · simp only [if_neg hflush]
    by_cases hemp : stF.chunks.isEmpty = true
    · simp [hemp, h]
    · have hne : stF.chunks ≠ [] := by
        intro hnil
        rw [hnil] at hemp
        simp at hemp
      rw [if_neg (by simp [hemp])]
      have hpos := List.length_pos.mpr hne
      rw [← hstF]
      exact hpos

/-- The chunk loop of `insertDocument` appends one row per chunk, in order,
with `chunk_index` counting up from the starting position. -/
theorem insertChunksFrom_rows (documentId : Nat) :
    ∀ (cs : List Chunk) (st : DBState) (i : Nat),
      ∃ rows, (insertChunksFrom documentId st i cs).1.chunks = st.chunks ++ rows ∧
        rows.map (fun r => r.chunkIndex) = List.range' i cs.length ∧
        rows.map (fun r => r.content) = cs.map (fun c => c.content) := by
  intro cs
  induction cs with
  | nil =>
    intro st i
    exact ⟨[], by simp [insertChunksFrom], by simp, by simp⟩
  | cons c rest ih =>
    intro st i
    obtain ⟨rows, h1, h2, h3⟩ := ih
      { st with
          chunks := st.chunks ++ [ChunkRow.mk st.nextChunkId documentId c.content i c.headingPath],
          chunksFts := st.chunksFts ++ [FtsRow.mk st.nextChunkId c.content c.headingPath],
          nextChunkId := st.nextChunkId + 1 } (i + 1)
    refine ⟨ChunkRow.mk st.nextChunkId documentId c.content i c.headingPath :: rows, ?_, ?_, ?_⟩
    · simp only [insertChunksFrom]
      rw [h1]
      simp
    · simp [h2, List.range'_succ]
    · simp [h3]

/-- C6: for every input text the Chunker emits chunks whose zero-based
sequence indices are exactly `0..N-1` in emission order; every text with
non-empty trimmed content yields at least one chunk; and `insertDocument`
persists `chunk_index` values contiguous from 0 within the document, in the
same emission order. -/
theorem c6_chunk_indices (maxCS : Nat) (text : String) (st : DBState)
    (document : DocInput) :
    ((splitText maxCS text).map (fun c => c.index) =
        List.range (splitText maxCS text).length) ∧
    (jsTrim text ≠ ("") → 1 ≤ (splitText maxCS text).length) ∧
    (∃ rows, (insertDocument st document (splitText maxCS text)).1.chunks =
        st.chunks ++ rows ∧
      rows.map (fun r => r.chunkIndex) = List.range (splitText maxCS text).length ∧
      rows.map (fun r => r.content) = (splitText maxCS text).map (fun c => c.content)) := by
  refine ⟨splitText_indices maxCS text, splitText_nonempty maxCS text, ?_⟩
  obtain ⟨rows, h1, h2, h3⟩ := insertChunksFrom_rows st.nextDocumentId (splitText maxCS text)
    { st with
        documents := st.documents ++ [docRowOf document st.nextDocumentId],
        nextDocumentId := st.nextDocumentId + 1 } 0
  refine ⟨rows, ?_, ?_, h3⟩
  · simpa [insertDocument] using h1
  · rw [h2, List.range_eq_range']

/-! ## C1: insertDocument is not atomic -/

/-- Document input used in the C1 scenario. -/
def c1Doc : DocInput :=
  { title := ("T"), library := ("L"), version := ("latest"), filePath := none }

/-- Two chunk drafts used in the C1 scenario. -/
def c1Chunks : List Chunk :=
  [createChunk ("alpha") ("") 0, createChunk ("beta") ("") 1]

/-- Database state after a failure while inserting the second chunk of the
C1 scenario. -/
def c1PartialState : DBState := insertDocumentPartial emptyDB c1Doc c1Chunks 1

/-- C1 counterexample: a failure while inserting the second chunk leaves a
state in which neither all chunk rows and full-text mirrors exist nor none
do — the document row, the first chunk row and its full-text entry survive
and the partial document is observable via `getDocuments`. -/
theorem c1_insertDocument_not_atomic_counterexample :
    ¬((c1PartialState.chunks.length = c1Chunks.length ∧
        c1PartialState.chunksFts.length = c1Chunks.length) ∨
      (c1PartialState.documents = [] ∧ c1PartialState.chunks = [] ∧
        c1PartialState.chunksFts = [])) ∧
    getDocuments c1PartialState none none ≠ [] := by decide

/-- Tables after the chunk loop of `insertDocument`: chunk and full-text
rows grow by one per chunk, the other tables are untouched, and every new
chunk row carries the inserted document's id. -/
theorem insertChunksFrom_tables (documentId : Nat) :
    ∀ (cs : List Chunk) (st : DBState) (i : Nat),
      ((insertChunksFrom documentId st i cs).1.chunks.length =
        st.chunks.length + cs.length) ∧
      ((insertChunksFrom documentId st i cs).1.chunksFts.length =
        st.chunksFts.length + cs.length) ∧
      ((insertChunksFrom documentId st i cs).1.documents = st.documents) ∧
      ((insertChunksFrom documentId st i cs).1.embeddings = st.embeddings) ∧
      (∀ r ∈ (insertChunksFrom documentId st i cs).1.chunks,
        r ∈ st.chunks ∨ r.documentId = documentId) := by
  intro cs
  induction cs with
  | nil =>
    intro st i
    refine ⟨by simp [insertChunksFrom], by simp [insertChunksFrom],
      by simp [insertChunksFrom], by simp [insertChunksFrom], ?_⟩
    intro r hr
    simp [insertChunksFrom] at hr
    exact Or.inl hr
  | cons c rest ih =>
    intro st i
    obtain ⟨h1, h2, h3, h4, h5⟩ := ih
      { st with
          chunks := st.chunks ++ [ChunkRow.mk st.nextChunkId documentId c.content i c.headingPath],
          chunksFts := st.chunksFts ++ [FtsRow.mk st.nextChunkId c.content c.headingPath],
          nextChunkId := st.nextChunkId + 1 } (i + 1)
    refine ⟨?_, ?_, ?_, ?_, ?_⟩
    · simp only [insertChunksFrom]
      rw [h1]
      simp
      omega
    · simp only [insertChunksFrom]
      rw [h2]
      simp
      omega
    · simp only [insertChunksFrom]
      rw [h3]
    · simp only [insertChunksFrom]
      rw [h4]
    · intro r hr
      simp only [insertChunksFrom] at hr
      rcases h5 r hr with hmem | hid
      · simp at hmem
        rcases hmem with hmem | hmem
        · exact Or.inl hmem
        · right
          rw [hmem]
      · exact Or.inr hid

/-- Tables after a full `insertDocument`: one new document row, one chunk
row and one full-text row per chunk, embeddings untouched, and every new
chunk row carries the new document's id. -/
theorem insertDocument_tables (document : DocInput) (cs : List Chunk) (st : DBState) :
    ((insertDocument st document cs).1.documents =
      st.documents ++ [docRowOf document st.nextDocumentId]) ∧
    ((insertDocument st document cs).1.chunks.length = st.chunks.length + cs.length) ∧
    ((insertDocument st document cs).1.chunksFts.length =
      st.chunksFts.length + cs.length) ∧
    ((insertDocument st document cs).1.embeddings = st.embeddings) ∧
    (∀ r ∈ (insertDocument st document cs).1.chunks,
      r ∈ st.chunks ∨ r.documentId = st.nextDocumentId) := by
  obtain ⟨h1, h2, h3, h4, h5⟩ := insertChunksFrom_tables st.nextDocumentId cs
    { st with documents := st.documents ++ [docRowOf document st.nextDocumentId],
              nextDocumentId := st.nextDocumentId + 1 } 0
  refine ⟨?_, ?_, ?_, ?_, ?_⟩
  · simpa [insertDocument] using h3
  · simpa [insertDocument] using h1
  · simpa [insertDocument] using h2
  · simpa [insertDocument] using h4
  · intro r hr
    exact h5 r (by simpa [insertDocument] using hr)

/-- C1 amended: `insertDocument` runs without a transaction, so a failure
while inserting chunk number `k` of a fresh document leaves the document
row, the first `k` chunk rows and their full-text mirrors durable, and
`getDocuments` then reports the partial document with only `k` chunks. -/
theorem c1_insertDocument_partial_observable (document : DocInput) (chunks : List Chunk)
    (k : Nat) (hk : k < chunks.length) :
    (insertDocumentPartial emptyDB document chunks k).chunks.length = k ∧
    (insertDocumentPartial emptyDB document chunks k).chunksFts.length = k ∧
    (getDocuments (insertDocumentPartial emptyDB document chunks k) none none).map
      (fun p => p.2) = [k] := by
  have htk : (chunks.take k).length = k := by
    rw [List.length_take]
    omega
  obtain ⟨h1, h2, h3, h4, h5⟩ := insertDocument_tables document (chunks.take k) emptyDB
  have hcl : (insertDocumentPartial emptyDB document chunks k).chunks.length = k := by
    unfold insertDocumentPartial
    rw [h2, htk]
    simp [emptyDB]
  have hfl : (insertDocumentPartial emptyDB document chunks k).chunksFts.length = k := by
    unfold insertDocumentPartial
    rw [h3, htk]
    simp [emptyDB]
  refine ⟨hcl, hfl, ?_⟩
  have hall : ∀ r ∈ (insertDocumentPartial emptyDB document chunks k).chunks,
      r.documentId = 1 := by
    intro r hr
    unfold insertDocumentPartial at hr
    rcases h5 r hr with hmem | hid
    · simp [emptyDB] at hmem
    · simpa [emptyDB] using hid
  have hdocs : (insertDocumentPartial emptyDB document chunks k).documents =
      [docRowOf document 1] := by
    unfold insertDocumentPartial
    rw [h1]
    simp [emptyDB]
  have hid1 : (docRowOf document 1).id = 1 := rfl
  simp only [getDocuments, hdocs, jsTruthy, Bool.not_false, Bool.false_or,
    Bool.true_or, List.filter_cons, List.filter_nil]
  have hfull : ((insertDocumentPartial emptyDB document chunks k).chunks.filter
      (fun c => c.documentId == (docRowOf document 1).id)).length = k := by
    rw [List.filter_eq_self.mpr, hcl]
    intro a ha
    rw [hid1]
    simpa using hall a ha
  simp [hfull]

/-- Witness for the C1 amended theorem at a concrete input. -/
theorem c1_insertDocument_partial_observable_witness :
    (getDocuments (insertDocumentPartial emptyDB c1Doc c1Chunks 1) none none).map
      (fun p => p.2) = [1] :=
  (c1_insertDocument_partial_observable c1Doc c1Chunks 1 (by decide)).2.2

/-- Witness for the C6 theorem at a concrete input. -/
theorem c6_chunk_indices_witness :
    1 ≤ (splitText 1000 ("hello world")).length :=
  (c6_chunk_indices 1000 ("hello world") emptyDB
    (DocInput.mk ("t") ("l") ("latest") none)).2.1 (by decide)

/-! ## C2: insertEmbeddings does not replace -/

/-- Database seeded with one document and one chunk (id 1) for the C2
scenario. -/
def c2Base : DBState :=
  (insertDocument emptyDB (DocInput.mk ("T2") ("L2") ("latest") none)
    [createChunk ("some text") ("") 0]).1

/-- State after two `insertEmbeddings` calls that both supply a vector for
chunk id 1. -/
def c2After : DBState :=
  insertEmbeddings (insertEmbeddings c2Base [(1, [(1 : ℚ)])]) [(1, [(2 : ℚ)])]

/-- C2: two `insertEmbeddings` calls for the same chunk id leave two
embedding rows for that chunk, not one ­— `INSERT OR REPLACE` never fires
because `schema.sql` declares no uniqueness constraint on
`embeddings.chunk_id`, so the claimed upsert behaviour does not hold: the
first call's vector is still live next to the second call's. -/
theorem c2_insertEmbeddings_appends_duplicate :
    ((c2After.embeddings.filter (fun e => e.chunkId == 1)).map
      (fun e => e.embedding) = [[(1 : ℚ)], [(2 : ℚ)]]) ∧
    ¬((c2After.embeddings.filter (fun e => e.chunkId == 1)).length = 1) := by
  constructor
  · rfl
  · decide

/-! ## C3: deleteLibrary cascades, except for the full-text index -/

/-- Database holding one document in library "X" with one chunk, its
full-text mirror row and one embedding, for the C3 scenario. -/
def c3Base : DBState :=
  insertEmbeddings
    ((insertDocument emptyDB (DocInput.mk ("T3") ("X") ("latest") none)
      [createChunk ("xcontent") ("") 0]).1)
    [(1, [(3 : ℚ)])]

/-- C3 counterexample: deleting library "X" removes the document, its chunk
and its embedding and returns count 1, but the chunk's full-text entry
remains in `chunks_fts` — a stale full-text entry survives the call,
contradicting the claim that no stale full-text entries remain. -/
theorem c3_deleteLibrary_stale_fts_counterexample :
    ((deleteLibrary c3Base ("X") none).2 = 1) ∧
    ((deleteLibrary c3Base ("X") none).1.documents = []) ∧
    ((deleteLibrary c3Base ("X") none).1.chunks = []) ∧
    ((deleteLibrary c3Base ("X") none).1.embeddings = []) ∧
    ((deleteLibrary c3Base ("X") none).1.chunksFts ≠ []) := by
  refine ⟨rfl, rfl, rfl, rfl, by decide⟩

/-- C3 amended: `deleteLibrary` returns the number of matching documents,
removes every matching document, cascades to those documents' chunks and to
those chunks' embeddings, but leaves the `chunks_fts` table unchanged, so
the deleted chunks' full-text entries remain stale. -/
theorem c3_deleteLibrary_cascades_except_fts (st : DBState) (library : String)
    (version : Option String) :
    ((deleteLibrary st library version).2 =
      (st.documents.filter (deleteMatches library version)).length) ∧
    (∀ d ∈ st.documents, deleteMatches library version d = true →
      d ∉ (deleteLibrary st library version).1.documents) ∧
    (∀ c ∈ st.chunks,
      ((st.documents.filter (deleteMatches library version)).map (fun d => d.id)).contains
        c.documentId = true →
      c ∉ (deleteLibrary st library version).1.chunks) ∧
    (∀ e ∈ st.embeddings,
      ((st.chunks.filter (fun c =>
          ((st.documents.filter (deleteMatches library version)).map (fun d => d.id)).contains
            c.documentId)).map (fun c => c.id)).contains e.chunkId = true →
      e ∉ (deleteLibrary st library version).1.embeddings) ∧
    ((deleteLibrary st library version).1.chunksFts = st.chunksFts) := by
  refine ⟨by simp [deleteLibrary], ?_, ?_, ?_, rfl⟩
  · intro d hd hmatch hmem
    simp only [deleteLibrary, List.mem_filter] at hmem
    rw [hmatch] at hmem
    simp at hmem
  · intro c hc hdel hmem
    simp only [deleteLibrary, List.mem_filter] at hmem
    rw [hdel] at hmem
    simp at hmem
  · intro e he hdel hmem
    simp only [deleteLibrary, List.mem_filter] at hmem
    rw [hdel] at hmem
    simp at hmem

/-- Witness for the C3 amended theorem at a concrete input. -/
theorem c3_deleteLibrary_cascades_except_fts_witness :
    docRowOf (DocInput.mk ("T3") ("X") ("latest") none) 1 ∉
      (deleteLibrary c3Base ("X") none).1.documents :=
  (c3_deleteLibrary_cascades_except_fts c3Base ("X") none).2.1
    (docRowOf (DocInput.mk ("T3") ("X") ("latest") none) 1) (by decide) (by decide)

/-! ## DocumentIndexingService: the query service -/

/-- Options object of `searchDocuments`.  The `useSemanticSearch` flag of
the source only controls whether a query embedding is computed; that
embedding is never used for ranking (a TODO in the source), so the flag
does not influence the results and is not modelled. -/
structure SearchOptions where
  library : Option String
  version : Option String
  limit : Nat
deriving DecidableEq

/-- Result record shaped by `searchDocuments`.  `url` and `chunkType` are
optional because the source reads `result.url` and `result.chunk_type` off
the row object, and a key the row does not carry reads as `undefined`,
modelled by `none`. -/
structure ShapedResult where
  title : String
  library : String
  version : String
  url : Option String
  content : String
  headingPath : String
  chunkType : Option String
  score : Int
deriving DecidableEq

/-- The result-shaping map of `searchDocuments`.  The row produced by the
`searchChunks` SELECT carries `file_path` but no `url` key, and no
`chunk_type` key exists anywhere in the schema, so those two property reads
yield `undefined`; `result.rank || 0` maps a zero rank to 0 and otherwise
passes the rank through. -/
def shapeResult (r : SearchRow) : ShapedResult :=
  { title := r.title, library := r.library, version := r.version,
    url := none,
    content := r.content, headingPath := r.heading_path,
    chunkType := none,
    score := if r.rank = 0 then 0 else r.rank }

/-- Success outcome of `searchDocuments`. -/
structure SearchOutcome where
  success : Bool
  results : List ShapedResult
  totalResults : Nat
deriving DecidableEq

/-- Method `searchDocuments` of `DocumentIndexingService`: over-fetch
`limit * 2` rows from the full-text search, filter them by library/version
equality when a truthy filter is given, truncate to `limit`, and shape each
remaining row. -/
def searchDocuments (eng : FtsEngine) (st : DBState) (query : String)
    (opts : SearchOptions) : SearchOutcome :=
  let ftsResults := searchChunks eng st query (opts.limit * 2)
  let results :=
    if jsTruthy opts.library || jsTruthy opts.version then
      ftsResults.filter (fun r =>
        (!jsTruthy opts.library || r.library == opts.library.getD ("")) &&
        (!jsTruthy opts.version || r.version == opts.version.getD ("")))
    else ftsResults
  let results := results.take opts.limit
  { success := true, results := results.map shapeResult,
    totalResults := results.length }

/-- Membership in a stable rank insertion. -/
theorem memInsertByRank (r x : SearchRow) (l : List SearchRow) :
    x ∈ insertByRank r l ↔ x = r ∨ x ∈ l := by
  induction l with
  | nil => simp [insertByRank]
  | cons a t ih =>
    simp only [insertByRank]
    by_cases h : r.rank ≤ a.rank
    · simp [h]
    · simp [h, ih]
      tauto

/-- Sorting by rank neither adds nor removes rows. -/
theorem memSortByRank (x : SearchRow) (l : List SearchRow) :
    x ∈ sortByRank l ↔ x ∈ l := by
  induction l with
  | nil => simp [sortByRank]
  | cons a t ih => simp [sortByRank, memInsertByRank, ih]

/-- Every row of the search join comes from a matching full-text row, its
chunk, and that chunk's document, with all columns copied from those
rows. -/
theorem mem_ftsJoin (eng : FtsEngine) (st : DBState) (q : String) (r : SearchRow)
    (hr : r ∈ ftsJoin eng st q) :
    ∃ f ∈ st.chunksFts, ∃ c ∈ st.chunks, ∃ d ∈ st.documents,
      eng.selects f q = true ∧ f.rowid = c.id ∧ c.documentId = d.id ∧
      r = SearchRow.mk c.id c.content c.headingPath d.title d.library d.version
            d.filePath (eng.rank f q) := by
  simp only [ftsJoin, List.mem_flatMap] at hr
  obtain ⟨f, hf, hrf⟩ := hr
  by_cases hsel : eng.selects f q = true
  · rw [if_pos hsel] at hrf
    simp only [List.mem_flatMap] at hrf
    obtain ⟨c, hc, hrc⟩ := hrf
    by_cases hid : f.rowid = c.id
    · rw [if_pos hid] at hrc
      simp only [List.mem_flatMap] at hrc
      obtain ⟨d, hd, hrd⟩ := hrc
      by_cases hdoc : c.documentId = d.id
      · rw [if_pos hdoc] at hrd
        simp only [List.mem_singleton] at hrd
        exact ⟨f, hf, c, hc, d, hd, hsel, hid, hdoc, hrd⟩
      · rw [if_neg hdoc] at hrd
        simp at hrd
    · rw [if_neg hid] at hrc
      simp at hrc
  · rw [if_neg hsel] at hrf
    simp at hrf

/-- C4 amended: every result of `searchDocuments` has title, library,
version, content and heading path populated from a stored chunk and its
document, and its score taken from the full-text engine's rank (through
`|| 0`); the source-locator field `url` and the content-type field
`chunkType`, however, are always `undefined`, because the storage row
exposes `file_path` (never read) and no content-type column exists. -/
theorem c4_search_result_shape (eng : FtsEngine) (st : DBState) (query : String)
    (opts : SearchOptions) (r : ShapedResult)
    (hr : r ∈ (searchDocuments eng st query opts).results) :
    r.url = none ∧ r.chunkType = none ∧
    ∃ c ∈ st.chunks, ∃ d ∈ st.documents, c.documentId = d.id ∧
      r.title = d.title ∧ r.library = d.library ∧ r.version = d.version ∧
      r.content = c.content ∧ r.headingPath = c.headingPath ∧
      ∃ f ∈ st.chunksFts, f.rowid = c.id ∧ eng.selects f query = true ∧
        r.score = (if eng.rank f query = 0 then 0 else eng.rank f query) := by
  simp only [searchDocuments, List.mem_map] at hr
  obtain ⟨row, hrow, hshape⟩ := hr
  have hmem : row ∈ searchChunks eng st query (opts.limit * 2) := by
    by_cases hfilt : (jsTruthy opts.library || jsTruthy opts.version) = true
    · rw [if_pos hfilt] at hrow
      have := List.take_subset opts.limit _ hrow
      exact (List.mem_filter.mp this).1
    · rw [if_neg hfilt] at hrow
      exact List.take_subset opts.limit _ hrow
  have hjoin : row ∈ ftsJoin eng st query := by
    have := List.take_subset (opts.limit * 2) _ hmem
    exact (memSortByRank row _).mp this
  obtain ⟨f, hf, c, hc, d, hd, hsel, hid, hdoc, hrowEq⟩ :=
    mem_ftsJoin eng st query row hjoin
  subst hshape
  rw [hrowEq]
  refine ⟨rfl, rfl, c, hc, d, hd, hdoc, rfl, rfl, rfl, rfl, rfl, f, hf, hid, hsel, rfl⟩

/-- Engine used by the C4 and C9 scenarios: every row matches and the rank
is the row's id (ascending, so lower ids rank better). -/
def rowidRankEngine : FtsEngine :=
  { selects := fun _ _ => true, rank := fun f _ => (f.rowid : Int) }

/-- Corpus for the C4 scenario: one indexed document with one chunk. -/
def c4Base : DBState :=
  (insertDocument emptyDB (DocInput.mk ("T4") ("L4") ("latest") none)
    [createChunk ("hello") ("H") 0]).1

/-- C4 counterexample: the search returns a non-empty result list, yet not
every returned record has its source locator and content-type fields
populated — both are `undefined` on every result. -/
theorem c4_search_shape_counterexample :
    ((searchDocuments rowidRankEngine c4Base ("hello")
        (SearchOptions.mk none none 10)).results ≠ []) ∧
    ¬(∀ r ∈ (searchDocuments rowidRankEngine c4Base ("hello")
        (SearchOptions.mk none none 10)).results,
      r.url.isSome = true ∧ r.chunkType.isSome = true) := by decide

/-- Witness for the C4 amended theorem at a concrete input. -/
theorem c4_search_result_shape_witness :
    (ShapedResult.mk ("T4") ("L4") ("latest") none ("hello") ("H") none 1).url = none ∧
    (ShapedResult.mk ("T4") ("L4") ("latest") none ("hello") ("H") none 1).chunkType = none :=
  ⟨(c4_search_result_shape rowidRankEngine c4Base ("hello") (SearchOptions.mk none none 10)
      (ShapedResult.mk ("T4") ("L4") ("latest") none ("hello") ("H") none 1) (by decide)).1,
   (c4_search_result_shape rowidRankEngine c4Base ("hello") (SearchOptions.mk none none 10)
      (ShapedResult.mk ("T4") ("L4") ("latest") none ("hello") ("H") none 1) (by decide)).2.1⟩

/-! ## C9: the post-filter can miss matching chunks -/

/-- Corpus for the C9 scenario: two matching chunks in library "A" (ranked
best) and one matching chunk in library "B" (ranked below them). -/
def c9Base : DBState :=
  (insertDocument
    ((insertDocument emptyDB (DocInput.mk ("TA") ("A") ("latest") none)
      [createChunk ("m one") ("") 0, createChunk ("m two") ("") 1]).1)
    (DocInput.mk ("TB") ("B") ("latest") none)
    [createChunk ("m three") ("") 0]).1

/-- C9: there is a corpus, query, library filter and limit for which the
filtered search returns fewer than `limit` results although at least
`limit` chunks matching the query exist in that library — the over-fetch
window of `limit * 2` rows is filtered only after retrieval, so matching
rows ranked below the window are silently missed. -/
theorem c9_overfetch_filter_misses :
    ∃ (eng : FtsEngine) (st : DBState) (query library : String) (lim : Nat),
      ((searchDocuments eng st query
          (SearchOptions.mk (some library) none lim)).results.length < lim) ∧
      lim ≤ ((ftsJoin eng st query).filter (fun r => r.library == library)).length :=
  ⟨rowidRankEngine, c9Base, ("m"), ("B"), 1, by decide⟩

/-! ## DocumentIndexingService: the indexing orchestrator -/

/-- Node `path.basename` for POSIX paths: strip trailing slashes, then take
the segment after the last remaining slash (the root-path corner, which no
caller reaches, is not special-cased). -/
def basename (p : String) : String :=
  String.mk (((p.data.reverse.dropWhile (fun c => c = '/')).takeWhile
    (fun c => c ≠ '/')).reverse)

/-- Node `path.extname`: the suffix of the basename from its last dot;
empty when there is no dot or the only dot is the leading character. -/
def extname (p : String) : String :=
  let b := (basename p).data
  let afterRev := b.reverse.takeWhile (fun c => c ≠ '.')
  if afterRev.length ≥ b.length then ("")
  else if afterRev.length + 1 = b.length then ("")
  else String.mk (b.drop (b.length - 1 - afterRev.length))

/-- Node `path.basename(p, path.extname(p))` as the source uses it: the
basename with its extension stripped. -/
def basenameNoExt (p : String) : String :=
  let b := basename p
  let e := extname p
  if e = ("") then b
  else String.mk (b.data.take (b.data.length - e.data.length))

/-- One logical document assembled by `indexFile`. -/
structure LogicalDoc where
  title : String
  content : String
  url : String
  library : String
  version : String
deriving DecidableEq

/-- Options object of `indexFile`. -/
structure IndexOptions where
  library : String
  version : String
  title : Option String
  separator : Option String
deriving DecidableEq

/-- The document-assembly step of `indexFile`: with a truthy separator the
content splits on every literal occurrence of it, parts with empty trimmed
content are dropped, each survivor is titled
`<title or filename> - Part i+1` (the part number keeps its pre-filter
index) and given a part-anchored url; without a separator the whole file is
one logical document. -/
def logicalDocuments (content : String) (filePath : String) (opts : IndexOptions) :
    List LogicalDoc :=
  if jsTruthy opts.separator then
    ((jsSplit content (opts.separator.getD (""))).enum).flatMap (fun ip =>
      let part := jsTrim ip.2
      if part = ("") then []
      else
        [{ title :=
             match opts.title with
             | some t =>
               if t = ("") then basename filePath ++ (" - Part ") ++ toString (ip.1 + 1)
               else t ++ (" - Part ") ++ toString (ip.1 + 1)
             | none => basename filePath ++ (" - Part ") ++ toString (ip.1 + 1),
           content := part,
           url := ("file://") ++ filePath ++ ("#part-") ++ toString (ip.1 + 1),
           library := opts.library, version := opts.version }])
  else
    [{ title :=
         match opts.title with
         | some t => if t = ("") then basenameNoExt filePath else t
         | none => basenameNoExt filePath,
       content := content,
       url := ("file://") ++ filePath,
       library := opts.library, version := opts.version }]

/-- Per-document entry of the `indexFile` result. -/
structure PerDocResult where
  documentId : Nat
  title : String
  chunks : Nat
deriving DecidableEq

/-- Outcome object of `indexFile`. -/
structure IndexResult where
  success : Bool
  documentsIndexed : Nat
  totalChunks : Nat
  results : List PerDocResult
  error : Option String
deriving DecidableEq

/-- The guarded embedding step of `indexFile` for one document: the
provider call and the embedding insert sit in a try/catch, modelled by an
oracle indexed by the document number — on success the vectors are zipped
with the chunk ids and persisted, on failure the exception is caught,
logged and the database is left as it was (`insertEmbeddings` is a single
transaction, so a failure inside it also leaves no rows). -/
def embedStep (embed : Nat → Except String (List (List ℚ))) (i : Nat)
    (chunkIds : List Nat) (st : DBState) : DBState :=
  match embed i with
  | Except.ok vecs => insertEmbeddings st (chunkIds.zip vecs)
  | Except.error _ => st

/-- The per-document loop of `indexFile`: chunk with the service's splitter
configuration (`maxChunkSize` 1000), persist document and chunks, run the
guarded embedding step, and accumulate the total chunk count and the
per-document results. -/
def indexDocsLoop (embed : Nat → Except String (List (List ℚ))) :
    List LogicalDoc → DBState → Nat → Nat → List PerDocResult →
    DBState × Nat × List PerDocResult
  | [], st, _, total, acc => (st, total, acc.reverse)
  | doc :: rest, st, i, total, acc =>
    let chunks := splitText 1000 doc.content
    let res := insertDocument st (DocInput.mk doc.title doc.library doc.version none) chunks
    let st2 := embedStep embed i res.2.2 res.1
    indexDocsLoop embed rest st2 (i + 1) (total + chunks.length)
      (PerDocResult.mk res.2.1 doc.title chunks.length :: acc)

/-- Method `indexFile` of `DocumentIndexingService`.  The file system is
modelled by `fileContent` (`none` when the path does not resolve to a
file); a missing file raises inside the try block, and the catch turns it
into the failure outcome. -/
def indexFile (fileContent : Option String) (filePath : String) (opts : IndexOptions)
    (embed : Nat → Except String (List (List ℚ))) (st : DBState) :
    IndexResult × DBState :=
  match fileContent with
  | none =>
    (IndexResult.mk false 0 0 [] (some (("File not found: ") ++ filePath)), st)
  | some content =>
    let docs := logicalDocuments content filePath opts
    let res := indexDocsLoop embed docs st 0 0 []
    (IndexResult.mk true docs.length res.2.1 res.2.2 none, res.1)

/-- The document/chunk side of the database — everything the embedding step
cannot touch. -/
def coreOf (st : DBState) :
    List DocumentRow × List ChunkRow × List FtsRow × Nat × Nat :=
  (st.documents, st.chunks, st.chunksFts, st.nextDocumentId, st.nextChunkId)

/-- `insertEmbeddings` only touches the embeddings table and its counter. -/
theorem insertEmbeddings_core (ces : List (Nat × List ℚ)) :
    ∀ st : DBState, coreOf (insertEmbeddings st ces) = coreOf st := by
  induction ces with
  | nil => intro st; rfl
  | cons ce rest ih =>
    intro st
    have h := ih { st with
      embeddings := st.embeddings ++
        [{ id := st.nextEmbeddingId, chunkId := ce.1, embedding := ce.2 }],
      nextEmbeddingId := st.nextEmbeddingId + 1 }
    simpa [insertEmbeddings, coreOf] using h

/-- The embedding step never changes the document/chunk side, whatever the
oracle answers. -/
theorem embedStep_core (embed : Nat → Except String (List (List ℚ))) (i : Nat)
    (chunkIds : List Nat) (st : DBState) :
    coreOf (embedStep embed i chunkIds st) = coreOf st := by
  unfold embedStep
  cases embed i with
  | ok vecs => exact insertEmbeddings_core (chunkIds.zip vecs) st
  | error e => rfl

/-- The chunk loop of `insertDocument` is a function of the document/chunk
side alone: states agreeing there produce agreeing results. -/
theorem insertChunksFrom_core (documentId : Nat) :
    ∀ (cs : List Chunk) (st1 st2 : DBState) (i : Nat),
      coreOf st1 = coreOf st2 →
      (coreOf (insertChunksFrom documentId st1 i cs).1 =
        coreOf (insertChunksFrom documentId st2 i cs).1) ∧
      ((insertChunksFrom documentId st1 i cs).2 =
        (insertChunksFrom documentId st2 i cs).2) := by
  intro cs
  induction cs with
  | nil =>
    intro st1 st2 i h
    exact ⟨h, rfl⟩
  | cons c rest ih =>
    intro st1 st2 i h
    have hd : st1.documents = st2.documents := congrArg (fun t => t.1) h
    have hc : st1.chunks = st2.chunks := congrArg (fun t => t.2.1) h
    have hf : st1.chunksFts = st2.chunksFts := congrArg (fun t => t.2.2.1) h
    have hdn : st1.nextDocumentId = st2.nextDocumentId := congrArg (fun t => t.2.2.2.1) h
    have hn : st1.nextChunkId = st2.nextChunkId := congrArg (fun t => t.2.2.2.2) h
    obtain ⟨h1, h2⟩ := ih
      { st1 with
          chunks := st1.chunks ++
            [ChunkRow.mk st1.nextChunkId documentId c.content i c.headingPath],
          chunksFts := st1.chunksFts ++
            [FtsRow.mk st1.nextChunkId c.content c.headingPath],
          nextChunkId := st1.nextChunkId + 1 }
      { st2 with
          chunks := st2.chunks ++
            [ChunkRow.mk st2.nextChunkId documentId c.content i c.headingPath],
          chunksFts := st2.chunksFts ++
            [FtsRow.mk st2.nextChunkId c.content c.headingPath],
          nextChunkId := st2.nextChunkId + 1 }
      (i + 1) (by simp [coreOf, hc, hf, hn, hd, hdn])
    refine ⟨?_, ?_⟩
    · simp only [insertChunksFrom]
      exact h1
    · simp only [insertChunksFrom]
      rw [h2, hn]

/-- `insertDocument` is a function of the document/chunk side alone. -/
theorem insertDocument_core (document : DocInput) (cs : List Chunk)
    (st1 st2 : DBState) (h : coreOf st1 = coreOf st2) :
    (coreOf (insertDocument st1 document cs).1 =
      coreOf (insertDocument st2 document cs).1) ∧
    ((insertDocument st1 document cs).2 = (insertDocument st2 document cs).2) := by
  have hd : st1.documents = st2.documents := congrArg (fun t => t.1) h
  have hc : st1.chunks = st2.chunks := congrArg (fun t => t.2.1) h
  have hf : st1.chunksFts = st2.chunksFts := congrArg (fun t => t.2.2.1) h
  have hdn : st1.nextDocumentId = st2.nextDocumentId := congrArg (fun t => t.2.2.2.1) h
  have hn : st1.nextChunkId = st2.nextChunkId := congrArg (fun t => t.2.2.2.2) h
  obtain ⟨h1, h2⟩ := insertChunksFrom_core st1.nextDocumentId cs
    { st1 with documents := st1.documents ++ [docRowOf document st1.nextDocumentId],
               nextDocumentId := st1.nextDocumentId + 1 }
    { st2 with documents := st2.documents ++ [docRowOf document st2.nextDocumentId],
               nextDocumentId := st2.nextDocumentId + 1 }
    0 (by simp [coreOf, hd, hdn, hc, hf, hn])
  constructor
  · simp only [insertDocument]
    rw [h1, hdn]
  · simp only [insertDocument]
    rw [h2, hdn]

/-- Whatever the embedding oracles answer, the per-document loop produces
the same document/chunk side, the same total chunk count and the same
per-document results. -/
theorem indexDocsLoop_oracle_core (e1 e2 : Nat → Except String (List (List ℚ))) :
    ∀ (docs : List LogicalDoc) (st1 st2 : DBState) (i total : Nat)
      (acc : List PerDocResult),
      coreOf st1 = coreOf st2 →
      (coreOf (indexDocsLoop e1 docs st1 i total acc).1 =
        coreOf (indexDocsLoop e2 docs st2 i total acc).1) ∧
      ((indexDocsLoop e1 docs st1 i total acc).2 =
        (indexDocsLoop e2 docs st2 i total acc).2) := by
  intro docs
  induction docs with
  | nil =>
    intro st1 st2 i total acc h
    exact ⟨h, rfl⟩
  | cons doc rest ih =>
    intro st1 st2 i total acc h
    obtain ⟨hD, hP⟩ := insertDocument_core
      (DocInput.mk doc.title doc.library doc.version none)
      (splitText 1000 doc.content) st1 st2 h
    have hid : (insertDocument st1
        (DocInput.mk doc.title doc.library doc.version none)
        (splitText 1000 doc.content)).2.1 =
        (insertDocument st2
        (DocInput.mk doc.title doc.library doc.version none)
        (splitText 1000 doc.content)).2.1 := congrArg Prod.fst hP
    have hids : (insertDocument st1
        (DocInput.mk doc.title doc.library doc.version none)
        (splitText 1000 doc.content)).2.2 =
        (insertDocument st2
        (DocInput.mk doc.title doc.library doc.version none)
        (splitText 1000 doc.content)).2.2 := congrArg Prod.snd hP
    have hcore2 : coreOf (embedStep e1 i
        (insertDocument st1 (DocInput.mk doc.title doc.library doc.version none)
          (splitText 1000 doc.content)).2.2
        (insertDocument st1 (DocInput.mk doc.title doc.library doc.version none)
          (splitText 1000 doc.content)).1) =
        coreOf (embedStep e2 i
        (insertDocument st2 (DocInput.mk doc.title doc.library doc.version none)
          (splitText 1000 doc.content)).2.2
        (insertDocument st2 (DocInput.mk doc.title doc.library doc.version none)
          (splitText 1000 doc.content)).1) := by
      rw [embedStep_core, embedStep_core]
      exact hD
    have := ih _ _ (i + 1) (total + (splitText 1000 doc.content).length)
      (PerDocResult.mk (insertDocument st2
        (DocInput.mk doc.title doc.library doc.version none)
        (splitText 1000 doc.content)).2.1 doc.title
        (splitText 1000 doc.content).length :: acc) hcore2
    simp only [indexDocsLoop]
    rw [hid]
    exact this

/-- The loop's running chunk total accumulates exactly the chunk count of
every logical document. -/
theorem indexDocsLoop_total (e : Nat → Except String (List (List ℚ))) :
    ∀ (docs : List LogicalDoc) (st : DBState) (i total : Nat)
      (acc : List PerDocResult),
      (indexDocsLoop e docs st i total acc).2.1 =
        total + (docs.map (fun d => (splitText 1000 d.content).length)).sum := by
  intro docs
  induction docs with
  | nil =>
    intro st i total acc
    simp [indexDocsLoop]
  | cons doc rest ih =>
    intro st i total acc
    simp only [indexDocsLoop]
    rw [ih]
    simp only [List.map_cons, List.sum_cons]
    omega

/-- C7: for every readable file whose documents and chunks are persisted,
every possible behaviour of the embedding step — including any failure
during embedding generation or embedding persistence — yields a success
outcome reporting the full logical-document count and total chunk count,
identical per-document results, and identical persisted documents and
chunks tables. -/
theorem c7_embedding_failures_swallowed (content : String) (filePath : String)
    (opts : IndexOptions) (st : DBState)
    (e1 e2 : Nat → Except String (List (List ℚ))) :
    ((indexFile (some content) filePath opts e1 st).1.success = true) ∧
    ((indexFile (some content) filePath opts e1 st).1.error = none) ∧
    ((indexFile (some content) filePath opts e1 st).1.documentsIndexed =
      (logicalDocuments content filePath opts).length) ∧
    ((indexFile (some content) filePath opts e1 st).1.totalChunks =
      ((logicalDocuments content filePath opts).map
        (fun d => (splitText 1000 d.content).length)).sum) ∧
    ((indexFile (some content) filePath opts e1 st).1.results =
      (indexFile (some content) filePath opts e2 st).1.results) ∧
    ((indexFile (some content) filePath opts e1 st).2.documents =
      (indexFile (some content) filePath opts e2 st).2.documents) ∧
    ((indexFile (some content) filePath opts e1 st).2.chunks =
      (indexFile (some content) filePath opts e2 st).2.chunks) := by
  obtain ⟨hcore, hres⟩ := indexDocsLoop_oracle_core e1 e2
    (logicalDocuments content filePath opts) st st 0 0 [] rfl
  refine ⟨rfl, rfl, rfl, ?_, ?_, ?_, ?_⟩
  · simp only [indexFile]
    rw [indexDocsLoop_total e1 (logicalDocuments content filePath opts) st 0 0 []]
    omega
  · simp only [indexFile]
    exact congrArg Prod.snd hres
  · simp only [indexFile]
    exact congrArg (fun t => t.1) hcore
  · simp only [indexFile]
    exact congrArg (fun t => t.2.1) hcore

/-! ## MockEmbeddingsService -/

/-- Dot product accumulated by the `calculateSimilarity` loop. -/
def dotProduct (a b : List ℚ) : ℚ :=
  ((a.zip b).map (fun p => p.1 * p.2)).sum

/-- Sum of squared components, the quantity whose square root is the
magnitude in `calculateSimilarity` and `generateMockEmbedding`. -/
def sumSquares (a : List ℚ) : ℚ :=
  (a.map (fun x => x * x)).sum

/-- A sum of squares is non-negative. -/
theorem sumSquares_nonneg (a : List ℚ) : 0 ≤ sumSquares a := by
  induction a with
  | nil => simp [sumSquares]
  | cons x t ih =>
    simp only [sumSquares, List.map_cons, List.sum_cons]
    have hx := mul_self_nonneg x
    have ht : 0 ≤ sumSquares t := ih
    simp only [sumSquares] at ht
    linarith

/-- The JavaScript zero test on the square-rooted magnitude,
`Math.sqrt(s) === 0`, is equivalent to `s = 0` for a sum of squares. -/
theorem magnitude_zero_iff (a : List ℚ) :
    Real.sqrt ((sumSquares a : ℚ) : ℝ) = 0 ↔ sumSquares a = 0 := by
  rw [Real.sqrt_eq_zero (by exact_mod_cast sumSquares_nonneg a)]
  exact_mod_cast Iff.rfl

/-- The value `dotProduct / (magnitude1 * magnitude2)` computed by
`calculateSimilarity` when neither magnitude is zero. -/
noncomputable def cosineValue (a b : List ℚ) : ℝ :=
  ((dotProduct a b : ℚ) : ℝ) /
    (Real.sqrt ((sumSquares a : ℚ) : ℝ) * Real.sqrt ((sumSquares b : ℚ) : ℝ))

/-- Method `calculateSimilarity` of `MockEmbeddingsService`: throws when the
two vectors differ in dimension, returns 0 when either magnitude is zero
(the source tests `magnitude === 0` on the square root, equivalent to a
zero sum of squares by `magnitude_zero_iff`), and otherwise returns the
cosine of the two vectors. -/
noncomputable def calculateSimilarity (a b : List ℚ) : Except String ℝ :=
  if a.length ≠ b.length then
    Except.error ("Embeddings must have the same dimension")
  else if sumSquares a = 0 ∨ sumSquares b = 0 then Except.ok 0
  else Except.ok (cosineValue a b)

/-- C8: `calculateSimilarity` signals a usage error exactly when the two
vectors differ in dimension; for equal dimensions it returns 0 without
raising whenever either vector has zero magnitude; and
`cosine([1,0],[1,0]) = 1` and `cosine([1,0],[0,1]) = 0`. -/
theorem c8_cosine_similarity :
    (∀ a b : List ℚ, (∃ msg, calculateSimilarity a b = Except.error msg) ↔
      a.length ≠ b.length) ∧
    (∀ a b : List ℚ, a.length = b.length →
      sumSquares a = 0 ∨ sumSquares b = 0 →
      calculateSimilarity a b = Except.ok 0) ∧
    (calculateSimilarity [(1 : ℚ), 0] [(1 : ℚ), 0] = Except.ok 1) ∧
    (calculateSimilarity [(1 : ℚ), 0] [(0 : ℚ), 1] = Except.ok 0) := by
  refine ⟨?_, ?_, ?_, ?_⟩
  · intro a b
    constructor
    · rintro ⟨msg, hmsg⟩
      by_contra hlen
      by_cases hz : sumSquares a = 0 ∨ sumSquares b = 0
      · simp [calculateSimilarity, hlen, hz] at hmsg
      · simp [calculateSimilarity, hlen, hz] at hmsg
    · intro hlen
      exact ⟨("Embeddings must have the same dimension"),
        by simp [calculateSimilarity, hlen]⟩
  · intro a b hlen hz
    simp [calculateSimilarity, hlen, hz]
  · have hs : sumSquares [(1 : ℚ), 0] = 1 := by norm_num [sumSquares]
    have hd : dotProduct [(1 : ℚ), 0] [(1 : ℚ), 0] = 1 := by norm_num [dotProduct]
    simp [calculateSimilarity, hs, cosineValue, hd, Real.sqrt_one]
  · have hsa : sumSquares [(1 : ℚ), 0] = 1 := by norm_num [sumSquares]
    have hsb : sumSquares [(0 : ℚ), 1] = 1 := by norm_num [sumSquares]
    have hd : dotProduct [(1 : ℚ), 0] [(0 : ℚ), 1] = 0 := by norm_num [dotProduct]
    simp [calculateSimilarity, hsa, hsb, cosineValue, hd]

/-- Witness for C8 at a concrete input with a zero-magnitude vector. -/
theorem c8_cosine_similarity_witness :
    calculateSimilarity [(0 : ℚ), 0] [(1 : ℚ), 0] = Except.ok 0 :=
  c8_cosine_similarity.2.1 [(0 : ℚ), 0] [(1 : ℚ), 0] rfl
    (Or.inl (by norm_num [sumSquares]))

/-! ## C10: the mock embedding generator divides by a zero magnitude -/

/-- JavaScript 32-bit truncation (the effect of `<<` and `& `): wrap into
the signed 32-bit range. -/
def toInt32 (x : Int) : Int := (x + 2 ^ 31) % 2 ^ 32 - 2 ^ 31

/-- One step of `simpleHash`: `hash = ((hash << 5) - hash) + char` followed
by `hash = hash & hash`, which truncates to 32 bits. -/
def simpleHashStep (h : Int) (c : Nat) : Int :=
  toInt32 (toInt32 (h * 32) - h + c)

/-- UTF-16 code units of a string — the units `charCodeAt` reads. -/
def utf16Units (s : String) : List Nat :=
  s.data.flatMap (fun c =>
    if c.val < 0x10000 then [c.toNat]
    else [0xd800 + (c.toNat - 0x10000) / 0x400, 0xdc00 + (c.toNat - 0x10000) % 0x400])

/-- Method `simpleHash`: roll the step over the code units starting from 0,
then normalize `Math.abs(hash) / 2147483647` to a rational in `[0, 1]`. -/
def simpleHash (s : String) : ℚ :=
  (((utf16Units s).foldl simpleHashStep 0).natAbs : ℚ) / 2147483647

/-- The pre-normalization vector of `generateMockEmbedding`:
`Math.sin(hash * (i + 1)) * 0.5` for each of the 384 dimensions. -/
noncomputable def preEmbedding (text : String) : List ℝ :=
  (List.range 384).map
    (fun i : Nat => Real.sin ((simpleHash text : ℝ) * ((i + 1 : Nat) : ℝ)) * 0.5)

/-- JavaScript division as used by the normalization step: a zero divisor
yields Infinity or NaN, a non-finite value, modelled as `none`. -/
noncomputable def jsDiv (a b : ℝ) : Option ℝ :=
  if b = 0 then none else some (a / b)

/-- Method `generateMockEmbedding`: divide every component of the
pre-normalization vector by its magnitude, with no guard against a zero
magnitude. -/
noncomputable def generateMockEmbedding (text : String) : List (Option ℝ) :=
  let e := preEmbedding text
  let magnitude := Real.sqrt ((e.map (fun v => v * v)).sum)
  e.map (fun v => jsDiv v magnitude)

/-- C10: for the empty string the rolling hash is 0, every
pre-normalization component is `sin(0) * 0.5 = 0`, the magnitude is 0, and
the returned 384-dimension vector consists entirely of non-finite values —
`generateMockEmbedding` does not return a well-defined L2-normalized vector
for every input. -/
theorem c10_mock_embedding_zero_magnitude :
    (simpleHash ("") = 0) ∧
    (preEmbedding ("") = List.replicate 384 0) ∧
    (Real.sqrt (((preEmbedding ("")).map (fun v => v * v)).sum) = 0) ∧
    (generateMockEmbedding ("") = List.replicate 384 none) ∧
    ((generateMockEmbedding ("")).length = 384) := by
  have hh : simpleHash ("") = 0 := by
    simp [simpleHash, utf16Units]
  have hpre : preEmbedding ("") = List.replicate 384 0 := by
    unfold preEmbedding
    rw [hh]
    have hz : (fun i : Nat => Real.sin (((0 : ℚ) : ℝ) * ((i + 1 : Nat) : ℝ)) * 0.5) =
        fun _ : Nat => (0 : ℝ) := by
      funext i
      simp
    rw [hz, List.map_const', List.length_range]
  have hrep : (((List.replicate 384 (0 : ℝ)).map (fun v => v * v)).sum) = 0 := by
    simp only [List.map_replicate, mul_zero, List.sum_replicate, smul_zero]
  have hmag : Real.sqrt (((preEmbedding ("")).map (fun v => v * v)).sum) = 0 := by
    rw [hpre, hrep, Real.sqrt_zero]
  have hgen : generateMockEmbedding ("") = List.replicate 384 none := by
    show (preEmbedding ("")).map
        (fun v => jsDiv v
          (Real.sqrt (((preEmbedding ("")).map (fun v => v * v)).sum))) =
      List.replicate 384 none
    rw [hmag, hpre, List.map_replicate]
    have hdz : jsDiv (0 : ℝ) 0 = none := by
      unfold jsDiv
      rw [if_pos rfl]
    rw [hdz]
  refine ⟨hh, hpre, hmag, hgen, ?_⟩
  rw [hgen, List.length_replicate]
